import Mathlib

/-!
# Verification of the dropbox-mcp server core (src/index.ts)

Shallow embedding of the token store, refresh-token resolution, HTTP
response classification, OAuth code exchange, the Dropbox operations
(download header construction, list-folder body, filename generation),
and the auth-status tool.  JavaScript strings are modelled as Lean
`String`s (or, for the header-escaping functions that operate on UTF-16
code units, as `List Nat` of code units).  File-system state is an
`Option String` holding the token file's contents; environment state is
an `Option String` for `DROPBOX_REFRESH_TOKEN`.  Thrown errors are
modelled with `Except String`.
-/

namespace DropboxMcp

/-- The set of characters removed by JavaScript `String.prototype.trim`
(ECMA-262 WhiteSpace plus LineTerminator). -/
def jsWhitespace (c : Char) : Bool :=
  let n := c.toNat
  n == 0x09 || n == 0x0A || n == 0x0B || n == 0x0C || n == 0x0D || n == 0x20 ||
  n == 0xA0 || n == 0x1680 || (decide (0x2000 <= n) && decide (n <= 0x200A)) ||
  n == 0x2028 || n == 0x2029 || n == 0x202F || n == 0x205F || n == 0x3000 ||
  n == 0xFEFF

/-- Trim on character lists: drop whitespace from the front, then from the back. -/
def trimList (l : List Char) : List Char :=
  (l.dropWhile jsWhitespace).rdropWhile jsWhitespace

/-- Model of JavaScript `s.trim()`. -/
def jsTrim (s : String) : String :=
  (trimList s.data).asString

/-- JavaScript truthiness of a `string | undefined` value:
`undefined` and the empty string are falsy. -/
def jsTruthy : Option String → Bool
  | none => false
  | some s => s != ""

/-- `saveRefreshToken(token)` (src/index.ts:87-89): writes `token` to the token
file, creating or truncating it.  The file-system state is the token file's
contents. -/
def saveRefreshToken (token : String) (_fs : Option String) : Option String :=
  some token

/-- `loadRefreshToken()` (src/index.ts:91-96): if the token file exists, its
contents trimmed of surrounding whitespace; otherwise `null`. -/
def loadRefreshToken (fs : Option String) : Option String :=
  fs.map jsTrim

/-- The error message thrown by `getRefreshToken` when no token is configured
(src/index.ts:109-118). -/
def refreshTokenNotConfiguredMsg : String :=
  "Dropbox refresh token is not configured.\n" ++
  "Set DROPBOX_REFRESH_TOKEN (recommended) or create a token file.\n" ++
  "You can also use MCP tools:\n" ++
  "- dropbox_auth_get_url (open the URL, authorize, copy the code)\n" ++
  "- dropbox_auth_exchange_code (exchange code -> refresh token; optionally save)"

/-- `getRefreshToken()` (src/index.ts:98-122): take the environment variable if
truthy, else the loaded token file value; throw if the result is falsy.
`env` is `process.env.DROPBOX_REFRESH_TOKEN`, `fs` the token file contents. -/
def getRefreshToken (env fs : Option String) : Except String String :=
  let refreshToken := if jsTruthy env then env else loadRefreshToken fs
  match refreshToken with
  | some t => if t = "" then .error refreshTokenNotConfiguredMsg else .ok t
  | none => .error refreshTokenNotConfiguredMsg

/-- The `dropbox_auth_status` tool handler (src/index.ts:437-455): trims the
environment token and the loaded file token, reports whether either is
non-empty and which source wins.  Returns `(configured, source)`. -/
def authStatus (env fs : Option String) (tokenFilePath : String) : Bool × String :=
  let envToken := jsTrim (env.getD "")
  let fileToken := jsTrim ((loadRefreshToken fs).getD "")
  let configured := envToken != "" || fileToken != ""
  let src :=
    if envToken != "" then "env:DROPBOX_REFRESH_TOKEN"
    else if fileToken != "" then "file:" ++ tokenFilePath
    else "none"
  (configured, src)

/-- Spec-side predicate: the environment token holds a value that is non-empty
after trimming. -/
def specEnvTokenSet : Option String → Bool
  | none => false
  | some e => jsTrim e != ""

/-- Spec-side predicate: the token file holds a value that is non-empty after
trimming. -/
def specFileTokenSet : Option String → Bool
  | none => false
  | some f => jsTrim f != ""

/-- The JSON body constructed by `listFolder` (src/index.ts:272-278), as a
record of its five fields. -/
structure ListFolderBody where
  path : String
  recursive : Bool
  include_media_info : Bool
  include_deleted : Bool
  include_has_explicit_shared_members : Bool
deriving DecidableEq, Repr

/-- The request body of `listFolder(folderPath)` (src/index.ts:269-292):
`"/"` is normalized to the empty path, everything else passes through;
recursion and the three info flags are off. -/
def listFolderBody (folderPath : String) : ListFolderBody :=
  { path := if folderPath = "/" then "" else folderPath
    recursive := false
    include_media_info := false
    include_deleted := false
    include_has_explicit_shared_members := false }

/-- Template interpolation of `res.statusCode` into the error message:
JavaScript renders an absent status code as `undefined`. -/
def statusText : Option Nat → String
  | some c => toString c
  | none => "undefined"

/-- The guard `res.statusCode && res.statusCode >= 200 && res.statusCode < 300`
of `makeRequest` (src/index.ts:144): truthiness of the status code (absent and
`0` are falsy) conjoined with the 2xx range check. -/
def isSuccessStatus : Option Nat → Bool
  | none => false
  | some c => c != 0 && decide (200 ≤ c) && decide (c < 300)

/-- Response classification of `makeRequest` (src/index.ts:142-153).  `parse`
stands for `JSON.parse`, which is a host built-in: `parse data = some v` models
a successful parse and `none` a thrown `SyntaxError`.  On a 2xx status the
parsed value is returned, falling back to the raw body text when parsing
fails; otherwise the promise is rejected with the status code and body. -/
def handleResponse {J : Type} (parse : String → Option J) (status : Option Nat)
    (data : String) : Except String (J ⊕ String) :=
  if isSuccessStatus status then
    match parse data with
    | some v => .ok (.inl v)
    | none => .ok (.inr data)
  else
    .error ("Request failed: " ++ statusText status ++ " - " ++ data)

/-- The error thrown by the exchange-code tool when the token response lacks a
refresh token (src/index.ts:481-485). -/
def noRefreshTokenMsg : String :=
  "Dropbox did not return a refresh_token. Ensure you requested offline " ++
  "access (token_access_type=offline) and the app is configured correctly."

/-- Result payload of the `dropbox_auth_exchange_code` tool
(src/index.ts:497-502): `tokenFile` is `undefined` when not saved. -/
structure ExchangeResult where
  refresh_token : String
  saved : Bool
  tokenFile : Option String
deriving DecidableEq, Repr

/-- The `dropbox_auth_exchange_code` tool handler (src/index.ts:474-509).
`respRefresh` is the `refresh_token` field of the Dropbox token response
(`none` models an absent field; the empty string, like `none`, is falsy and
rejected).  Returns the result payload together with the new token-file
contents and the new in-process `DROPBOX_REFRESH_TOKEN` value. -/
def exchangeCodeTool (respRefresh : Option String) (save : Option Bool)
    (fs _env : Option String) (tokenFilePath : String) :
    Except String (ExchangeResult × Option String × Option String) :=
  match respRefresh with
  | none => .error noRefreshTokenMsg
  | some refreshToken =>
    if refreshToken = "" then .error noRefreshTokenMsg
    else
      let shouldSave := save != some false
      let fs1 := if shouldSave then saveRefreshToken refreshToken fs else fs
      let env1 := some refreshToken
      .ok ({ refresh_token := refreshToken, saved := shouldSave,
             tokenFile := if shouldSave then some tokenFilePath else none },
           fs1, env1)

/-- A JavaScript `Date` seen through the local-time accessors used by
`generateFileName`; `getMonth` is 0-based as in JavaScript. -/
structure JSDate where
  getFullYear : Nat
  getMonth : Nat
  getDate : Nat
  getHours : Nat
  getMinutes : Nat

/-- JavaScript `String.prototype.padStart(2, "0")`. -/
def padStart2 (s : String) : String :=
  if 2 ≤ s.length then s else (List.replicate (2 - s.length) '0').asString ++ s

/-- The character class `[/\\?%*:|"<>]` of `generateFileName`
(src/index.ts:302). -/
def fileNameBadChars : List Char :=
  ['/', '\\', '?', '%', '*', ':', '|', '\"', '<', '>']

/-- `title.replace(/[/\\?%*:|"<>]/g, "-")`: each character of the class is
replaced by a dash, all others kept. -/
def sanitizeTitle (title : String) : String :=
  (title.data.map fun c => if c ∈ fileNameBadChars then '-' else c).asString

/-- `generateFileName(title)` (src/index.ts:294-304), with the call-time
`new Date()` made an explicit argument `now`. -/
def generateFileName (now : JSDate) (title : String) : String :=
  let year := now.getFullYear
  let month := padStart2 (toString (now.getMonth + 1))
  let day := padStart2 (toString now.getDate)
  let hours := padStart2 (toString now.getHours)
  let minutes := padStart2 (toString now.getMinutes)
  let timestamp := toString year ++ month ++ day ++ hours ++ minutes
  let sanitizedTitle := sanitizeTitle title
  timestamp ++ "-" ++ sanitizedTitle ++ ".md"

/-- Spec-side zero-padded two-digit decimal rendering. -/
def specPad2 (n : Nat) : String :=
  if n < 10 then "0" ++ toString n else toString n

/-- Spec-side sanitization, following the claim's wording: each occurrence of
the characters / \ ? % * : | " < > is replaced by a dash and no other
character is changed. -/
def specSanitize (title : String) : String :=
  (title.data.map fun c =>
    if c = '/' ∨ c = '\\' ∨ c = '?' ∨ c = '%' ∨ c = '*' ∨ c = ':' ∨
       c = '|' ∨ c = '\"' ∨ c = '<' ∨ c = '>' then '-' else c).asString

/-- UTF-16 code units of an ASCII Lean string literal. -/
def strUnits (s : String) : List Nat :=
  s.data.map Char.toNat

/-- A single lowercase hexadecimal digit character, as a code unit. -/
def hexDigitUnit (d : Nat) : Nat :=
  if d < 10 then 48 + d else 87 + d

/-- Lowercase hexadecimal rendering of a number (`c.toString(16)`), with
explicit fuel; `hexUnits` supplies enough fuel for every input. -/
def hexUnitsCore : Nat → Nat → List Nat
  | 0, _ => []
  | fuel+1, n =>
    if n < 16 then [hexDigitUnit n]
    else hexUnitsCore fuel (n / 16) ++ [hexDigitUnit (n % 16)]

/-- `c.charCodeAt(0).toString(16)` as code units. -/
def hexUnits (n : Nat) : List Nat :=
  hexUnitsCore (n + 1) n

/-- `("0000" + hex).slice(-4)` (src/index.ts:220): pad with zeros and keep the
last four characters. -/
def hex4 (n : Nat) : List Nat :=
  let padded := strUnits "0000" ++ hexUnits n
  padded.drop (padded.length - 4)

/-- A `\uXXXX` escape sequence, as code units. -/
def uEscape (n : Nat) : List Nat :=
  strUnits "\\u" ++ hex4 n

/-- `escapeNonAscii` (src/index.ts:218-222): every UTF-16 code unit matched by
`/[\u007f-￿]/` is replaced by its `\uXXXX` escape; the rest is kept. -/
def escapeNonAscii (l : List Nat) : List Nat :=
  l.flatMap fun c => if 0x7f ≤ c ∧ c ≤ 0xffff then uEscape c else [c]

/-- JSON string quoting as `JSON.stringify` performs it on the path value
(ECMA-262 QuoteJSONString, well-formed since ES2019), over UTF-16 code units:
quote and backslash get backslash escapes, the five control characters with
short forms get those, other control characters below 0x20 and lone
surrogates get `\uXXXX`, and everything else — including paired
surrogates — is copied verbatim. -/
def quoteJsonUnits : List Nat → List Nat
  | [] => []
  | c :: rest =>
    if c = 0x22 then 92 :: 34 :: quoteJsonUnits rest
    else if c = 0x5c then 92 :: 92 :: quoteJsonUnits rest
    else if c = 0x08 then 92 :: 98 :: quoteJsonUnits rest
    else if c = 0x09 then 92 :: 116 :: quoteJsonUnits rest
    else if c = 0x0a then 92 :: 110 :: quoteJsonUnits rest
    else if c = 0x0c then 92 :: 102 :: quoteJsonUnits rest
    else if c = 0x0d then 92 :: 114 :: quoteJsonUnits rest
    else if c < 0x20 then uEscape c ++ quoteJsonUnits rest
    else if 0xd800 ≤ c ∧ c ≤ 0xdbff then
      match rest with
      | c2 :: rest2 =>
        if 0xdc00 ≤ c2 ∧ c2 ≤ 0xdfff then c :: c2 :: quoteJsonUnits rest2
        else uEscape c ++ quoteJsonUnits (c2 :: rest2)
      | [] => uEscape c
    else if 0xdc00 ≤ c ∧ c ≤ 0xdfff then uEscape c ++ quoteJsonUnits rest
    else c :: quoteJsonUnits rest

/-- `JSON.stringify({ path: filePath })` as UTF-16 code units. -/
def jsonPathArg (filePath : List Nat) : List Nat :=
  strUnits "\x7b\"path\":\"" ++ quoteJsonUnits filePath ++ strUnits "\"\x7d"

/-- The `Dropbox-API-Arg` header value built by `downloadFile`
(src/index.ts:233): `escapeNonAscii(JSON.stringify({ path: filePath }))`. -/
def downloadApiArgHeader (filePath : List Nat) : List Nat :=
  escapeNonAscii (jsonPathArg filePath)

/-- The header list of the download request (src/index.ts:231-235). -/
def downloadHeaders (accessToken : String) (filePath : List Nat) :
    List (String × List Nat) :=
  [("Authorization", strUnits ("Bearer " ++ accessToken)),
   ("Dropbox-API-Arg", downloadApiArgHeader filePath),
   ("Content-Type", strUnits "text/plain; charset=utf-8")]

/-- The escaping described by the claim: characters inside printable ASCII
[0x20, 0x7e] kept unchanged, every character outside replaced by `\uXXXX`. -/
def claimEscape (l : List Nat) : List Nat :=
  l.flatMap fun c => if 0x20 ≤ c ∧ c ≤ 0x7e then [c] else uEscape c

/-- The header value the claim describes. -/
def claimHeader (filePath : List Nat) : List Nat :=
  strUnits "\x7b\"path\":\"" ++ claimEscape filePath ++ strUnits "\"\x7d"

end DropboxMcp

namespace DropboxMcp

/-- Characterisation of `jsTruthy` on `loadRefreshToken`. -/
theorem jsTruthy_loadRefreshToken_eq_false (fs : Option String) :
    jsTruthy (loadRefreshToken fs) = false ↔ fs = none ∨ ∃ f, fs = some f ∧ jsTrim f = "" := by
  cases fs with
  | none => simp [jsTruthy, loadRefreshToken]
  | some f =>
    have hred : jsTruthy (loadRefreshToken (some f)) = (jsTrim f != "") := rfl
    rw [hred]
    constructor
    · intro h
      exact Or.inr ⟨f, rfl, by simpa [bne_eq_false_iff_eq] using h⟩
    · rintro (h | ⟨g, hg, htrim⟩)
      · cases h
      · cases hg; simpa [bne_eq_false_iff_eq] using htrim

/-- C7: saving a token then loading returns the trimmed token; loading with no
token file present returns an absent value. -/
theorem tokenStore_round_trip (t : String) (fs : Option String) :
    loadRefreshToken (saveRefreshToken t fs) = some (jsTrim t) ∧
    loadRefreshToken none = none :=
  ⟨rfl, rfl⟩

set_option maxRecDepth 10000 in
/-- C4: `getRefreshToken` returns the environment value when both the
environment token and the token file value are present and non-empty; when
neither source yields a non-empty value it fails with the configuration error
message, which names the auth-URL tool, the exchange-code tool, and the
environment variable. -/
theorem getRefreshToken_spec (env fs : Option String) :
    (∀ e f, env = some e → e ≠ "" → fs = some f → f ≠ "" →
      getRefreshToken env fs = .ok e) ∧
    (jsTruthy env = false → jsTruthy (loadRefreshToken fs) = false →
      getRefreshToken env fs = .error refreshTokenNotConfiguredMsg ∧
      "dropbox_auth_get_url".data <:+: refreshTokenNotConfiguredMsg.data ∧
      "dropbox_auth_exchange_code".data <:+: refreshTokenNotConfiguredMsg.data ∧
      "Set DROPBOX_REFRESH_TOKEN".data <:+: refreshTokenNotConfiguredMsg.data) := by
  constructor
  · rintro e f rfl he rfl hf
    simp [getRefreshToken, jsTruthy, bne_iff_ne, he]
  · intro henv hfile
    refine ⟨?_, by decide, by decide, by decide⟩
    simp only [getRefreshToken, henv]
    rcases (jsTruthy_loadRefreshToken_eq_false fs).mp hfile with h | ⟨f, hf, htrim⟩
    · simp [loadRefreshToken, h]
    · subst hf
      have hload : loadRefreshToken (some f) = some (jsTrim f) := rfl
      simp [hload, htrim]

/-- Witness for C4 at concrete inputs. -/
theorem getRefreshToken_spec_witness :
    getRefreshToken (some "tok") (some "filetok") = .ok "tok" :=
  (getRefreshToken_spec (some "tok") (some "filetok")).1 "tok" "filetok" rfl
    (by decide) rfl (by decide)

/-- Dropping from the front again after a trim changes nothing. -/
theorem dropWhile_rdropWhile_dropWhile {α : Type} (p : α → Bool) (l : List α) :
    ((l.dropWhile p).rdropWhile p).dropWhile p = (l.dropWhile p).rdropWhile p := by
  obtain ⟨t, ht⟩ := List.rdropWhile_prefix p (l.dropWhile p)
  cases hB : (l.dropWhile p).rdropWhile p with
  | nil => simp
  | cons b bs =>
    have hA : l.dropWhile p = b :: (bs ++ t) := by
      rw [← ht, hB]
      simp
    have h0 := List.head?_dropWhile_not p l
    rw [hA] at h0
    simp only [List.head?_cons] at h0
    exact List.dropWhile_cons_of_neg (by simp [h0])

/-- `trimList` is idempotent. -/
theorem trimList_idem (l : List Char) : trimList (trimList l) = trimList l := by
  unfold trimList
  rw [dropWhile_rdropWhile_dropWhile]
  exact List.rdropWhile_idempotent _ _

/-- Trimming the empty string gives the empty string. -/
theorem jsTrim_empty : jsTrim "" = "" := rfl

/-- `jsTrim` is idempotent, like JavaScript `trim`. -/
theorem jsTrim_idem (s : String) : jsTrim (jsTrim s) = jsTrim s := by
  unfold jsTrim
  have hdata : (List.asString (trimList s.data)).data = trimList s.data := rfl
  rw [hdata, trimList_idem]

/-- `specEnvTokenSet` agrees with the expression computed by `authStatus`. -/
theorem specEnvTokenSet_eq (env : Option String) :
    specEnvTokenSet env = (jsTrim (env.getD "") != "") := by
  cases env <;> simp [specEnvTokenSet, jsTrim_empty]

/-- `specFileTokenSet` agrees with the expression computed by `authStatus`. -/
theorem specFileTokenSet_eq (fs : Option String) :
    specFileTokenSet fs = (jsTrim ((loadRefreshToken fs).getD "") != "") := by
  cases fs <;> simp [specFileTokenSet, loadRefreshToken, jsTrim_empty, jsTrim_idem]

/-- C5 (amended): `auth_status` reports `configured` exactly when the
environment token or the token file holds a value non-empty after trimming;
the source is `"env:DROPBOX_REFRESH_TOKEN"` when the environment token is
non-empty after trimming, `"file:<path>"` when only the file token is, and
`"none"` otherwise (with `configured = false`). -/
theorem authStatus_spec (env fs : Option String) (tokenFilePath : String) :
    ((authStatus env fs tokenFilePath).1 = true ↔
      specEnvTokenSet env = true ∨ specFileTokenSet fs = true) ∧
    (specEnvTokenSet env = true →
      (authStatus env fs tokenFilePath).2 = "env:DROPBOX_REFRESH_TOKEN") ∧
    (specEnvTokenSet env = false → specFileTokenSet fs = true →
      (authStatus env fs tokenFilePath).2 = "file:" ++ tokenFilePath) ∧
    (specEnvTokenSet env = false → specFileTokenSet fs = false →
      (authStatus env fs tokenFilePath).1 = false ∧
      (authStatus env fs tokenFilePath).2 = "none") := by
  have he := specEnvTokenSet_eq env
  have hf := specFileTokenSet_eq fs
  unfold authStatus
  by_cases h1 : jsTrim (env.getD "") = "" <;>
    by_cases h2 : jsTrim ((loadRefreshToken fs).getD "") = "" <;>
      simp [h1, h2] at he hf ⊢ <;> simp_all

/-- Witness for C5 at the no-configuration state. -/
theorem authStatus_spec_witness :
    (authStatus none none "/home/user/.dropbox_token").1 = false ∧
    (authStatus none none "/home/user/.dropbox_token").2 = "none" :=
  (authStatus_spec none none "/home/user/.dropbox_token").2.2.2 rfl rfl

/-- C5 counterexample: with a non-empty environment token the reported source
is the string `"env:DROPBOX_REFRESH_TOKEN"`, not the bare `"env"` stated in
the claim. -/
theorem authStatus_source_env_counterexample :
    (authStatus (some "tok") none "/home/user/.dropbox_token").2 =
      "env:DROPBOX_REFRESH_TOKEN" ∧
    (authStatus (some "tok") none "/home/user/.dropbox_token").2 ≠ "env" := by
  constructor <;> decide

/-- C6: the code violates the invariant.  A whitespace-only
`DROPBOX_REFRESH_TOKEN` is truthy, so `getRefreshToken` accepts it and the
token request would use the whitespace-only value, even though every one of
its characters is whitespace and `auth_status` itself reports this very state
as not configured. -/
theorem whitespace_env_token_used :
    getRefreshToken (some "   ") none = .ok "   " ∧
    (∀ c ∈ ("   " : String).data, jsWhitespace c = true) ∧
    (authStatus (some "   ") none "/home/user/.dropbox_token").1 = false := by
  refine ⟨rfl, by decide, by decide⟩

/-- C8: the list-folder request body maps the root path `"/"` to the empty
string, passes every other path through unchanged, and disables recursion and
the media/deleted/shared-member info flags. -/
theorem listFolderBody_spec (folderPath : String) :
    (folderPath = "/" → (listFolderBody folderPath).path = "") ∧
    (folderPath ≠ "/" → (listFolderBody folderPath).path = folderPath) ∧
    (listFolderBody folderPath).recursive = false ∧
    (listFolderBody folderPath).include_media_info = false ∧
    (listFolderBody folderPath).include_deleted = false ∧
    (listFolderBody folderPath).include_has_explicit_shared_members = false := by
  refine ⟨fun h => ?_, fun h => ?_, rfl, rfl, rfl, rfl⟩ <;>
    simp [listFolderBody, h]

/-- Witness for C8 at the root path. -/
theorem listFolderBody_spec_witness : (listFolderBody "/").path = "" :=
  (listFolderBody_spec "/").1 rfl

/-- C3: response classification of the HTTP client.  A 2xx status with a
parsable body resolves to the parsed value; a 2xx status with an unparsable
body resolves to the raw text; any other status rejects with an error carrying
the status code and the raw body. -/
theorem handleResponse_spec {J : Type} (parse : String → Option J) (s : Nat)
    (data : String) :
    (200 ≤ s → s < 300 → ∀ v, parse data = some v →
      handleResponse parse (some s) data = .ok (.inl v)) ∧
    (200 ≤ s → s < 300 → parse data = none →
      handleResponse parse (some s) data = .ok (.inr data)) ∧
    (¬(200 ≤ s ∧ s < 300) →
      handleResponse parse (some s) data =
        .error ("Request failed: " ++ toString s ++ " - " ++ data)) := by
  refine ⟨?_, ?_, ?_⟩
  · intro h1 h2 v hv
    have hs : isSuccessStatus (some s) = true := by
      simp [isSuccessStatus]
      omega
    simp [handleResponse, hs, hv]
  · intro h1 h2 hv
    have hs : isSuccessStatus (some s) = true := by
      simp [isSuccessStatus]
      omega
    simp [handleResponse, hs, hv]
  · intro h
    have hs : isSuccessStatus (some s) = false := by
      simp [isSuccessStatus]
      omega
    simp [handleResponse, hs, statusText]

/-- Witness for C3 at a 404 response. -/
theorem handleResponse_spec_witness :
    handleResponse (fun _ => (none : Option Nat)) (some 404) "not found" =
      .error ("Request failed: " ++ toString 404 ++ " - " ++ "not found") :=
  (handleResponse_spec (fun _ => (none : Option Nat)) 404 "not found").2.2
    (by omega)

set_option maxRecDepth 100000 in
/-- Decimal representations of the numbers 1000-9999 have four characters,
checked block by block. -/
theorem repr_four_digit_blocks :
    ∀ a < 9, ∀ n < 1000, (Nat.repr (1000 + a * 1000 + n)).length = 4 := by
  decide

/-- A year between 1000 and 9999 renders as four characters. -/
theorem repr_year_length (y : Nat) (h1 : 1000 ≤ y) (h2 : y ≤ 9999) :
    (Nat.repr y).length = 4 := by
  have ha : (y - 1000) / 1000 < 9 := by omega
  have hn : (y - 1000) % 1000 < 1000 := by omega
  have := repr_four_digit_blocks ((y - 1000) / 1000) ha ((y - 1000) % 1000) hn
  rwa [show 1000 + (y - 1000) / 1000 * 1000 + (y - 1000) % 1000 = y from by omega]
    at this

set_option maxRecDepth 10000 in
/-- `padStart(2, "0")` on the decimal rendering of a number below 100 agrees
with the spec-side zero-padding. -/
theorem padStart2_toString : ∀ n < 100, padStart2 (toString n) = specPad2 n := by
  decide

/-- The source's sanitization character class coincides with the claim's list
of characters. -/
theorem sanitizeTitle_eq_specSanitize (title : String) :
    sanitizeTitle title = specSanitize title := by
  unfold sanitizeTitle specSanitize
  congr 1
  apply List.map_congr_left
  intro c _
  by_cases h : c = '/' ∨ c = '\\' ∨ c = '?' ∨ c = '%' ∨ c = '*' ∨ c = ':' ∨
      c = '|' ∨ c = '\"' ∨ c = '<' ∨ c = '>' <;>
    simp [fileNameBadChars, h]

/-- C2: at any local instant with in-range fields and a four-digit year,
`generateFileName` produces the `YYYYMMDDHHmm-S.md` string, where the month,
day, hour and minute are zero-padded to two digits, the month is the 1-based
month, and `S` replaces exactly the characters / \ ? % * : | " < > of the
title by dashes. -/
theorem generateFileName_spec (now : JSDate) (title : String)
    (hy1 : 1000 ≤ now.getFullYear) (hy2 : now.getFullYear ≤ 9999)
    (hm : now.getMonth < 12) (hd : now.getDate ≤ 31) (hh : now.getHours < 24)
    (hmin : now.getMinutes < 60) :
    generateFileName now title =
      toString now.getFullYear ++ specPad2 (now.getMonth + 1) ++
        specPad2 now.getDate ++ specPad2 now.getHours ++
        specPad2 now.getMinutes ++ "-" ++ specSanitize title ++ ".md" ∧
    (toString now.getFullYear).length = 4 := by
  constructor
  · simp only [generateFileName]
    rw [padStart2_toString _ (by omega), padStart2_toString _ (by omega),
      padStart2_toString _ (by omega), padStart2_toString _ (by omega),
      sanitizeTitle_eq_specSanitize]
  · exact repr_year_length _ hy1 hy2

/-- Witness for C2 at a concrete instant and title. -/
theorem generateFileName_spec_witness :
    generateFileName ⟨2024, 0, 5, 7, 9⟩ "a:b" =
      toString (2024 : Nat) ++ specPad2 (0 + 1) ++ specPad2 5 ++ specPad2 7 ++
        specPad2 9 ++ "-" ++ specSanitize "a:b" ++ ".md" ∧
    (toString (2024 : Nat)).length = 4 :=
  generateFileName_spec ⟨2024, 0, 5, 7, 9⟩ "a:b" (by decide) (by decide)
    (by decide) (by decide) (by decide) (by decide)

/-- C9 counterexample: a refresh token carrying surrounding whitespace is
saved verbatim, but a subsequent load returns the trimmed string, not the
token that was returned by the tool. -/
theorem exchangeCode_load_counterexample :
    exchangeCodeTool (some " y ") none none none "/home/user/.dropbox_token" =
      .ok ({ refresh_token := " y ", saved := true,
             tokenFile := some "/home/user/.dropbox_token" },
           some " y ", some " y ") ∧
    loadRefreshToken (some " y ") = some "y" ∧
    ("y" : String) ≠ " y " := by
  refine ⟨rfl, by decide, by decide⟩

/-- C9 (amended): a response without a (truthy) refresh token fails with the
no-refresh-token error; with `save` omitted or true the token is written to
the token file, the result reports `saved := true` with the token-file path,
and a subsequent load returns the token trimmed of surrounding whitespace;
with `save = false` the file is untouched, `saved := false`, and no path is
reported. -/
theorem exchangeCodeTool_spec (respRefresh : Option String) (save : Option Bool)
    (fs env : Option String) (p : String) :
    (jsTruthy respRefresh = false →
      exchangeCodeTool respRefresh save fs env p = .error noRefreshTokenMsg) ∧
    (∀ r, respRefresh = some r → r ≠ "" → save ≠ some false →
      exchangeCodeTool respRefresh save fs env p =
        .ok ({ refresh_token := r, saved := true, tokenFile := some p },
             some r, some r) ∧
      loadRefreshToken (some r) = some (jsTrim r)) ∧
    (∀ r, respRefresh = some r → r ≠ "" → save = some false →
      exchangeCodeTool respRefresh save fs env p =
        .ok ({ refresh_token := r, saved := false, tokenFile := none },
             fs, some r)) := by
  refine ⟨?_, ?_, ?_⟩
  · intro h
    cases respRefresh with
    | none => rfl
    | some r =>
      have : r = "" := by simpa [jsTruthy, bne_eq_false_iff_eq] using h
      simp [exchangeCodeTool, this]
  · rintro r rfl hr hsave
    exact ⟨by simp [exchangeCodeTool, hr, saveRefreshToken, bne_iff_ne, hsave], rfl⟩
  · rintro r rfl hr rfl
    simp [exchangeCodeTool, hr]

/-- Witness for C9 with the default save behaviour. -/
theorem exchangeCodeTool_spec_witness :
    exchangeCodeTool (some "y") none none none "/tok" =
      .ok ({ refresh_token := "y", saved := true, tokenFile := some "/tok" },
           some "y", some "y") :=
  ((exchangeCodeTool_spec (some "y") none none none "/tok").2.1 "y" rfl
    (by decide) (by decide)).1

/-- C10: every successful exchange — also with `save = false` — overwrites the
in-process environment token with the new refresh token, and a later
`getRefreshToken` resolves to it whatever the token file holds. -/
theorem exchangeCode_env_overwrite (r : String) (hr : r ≠ "")
    (save : Option Bool) (fs env anyFs : Option String) (p : String) :
    (exchangeCodeTool (some r) save fs env p).map (fun x => x.2.2) =
      .ok (some r) ∧
    getRefreshToken (some r) anyFs = .ok r := by
  constructor
  · simp [exchangeCodeTool, hr, Except.map]
  · simp [getRefreshToken, jsTruthy, bne_iff_ne, hr]

/-- Witness for C10 with `save = false` and a stale token file. -/
theorem exchangeCode_env_overwrite_witness :
    (exchangeCodeTool (some "y") (some false) none none "/tok").map
        (fun x => x.2.2) = .ok (some "y") ∧
    getRefreshToken (some "y") (some "old") = .ok "y" :=
  exchangeCode_env_overwrite "y" (by decide) (some false) none none
    (some "old") "/tok"

/-- Hexadecimal digit characters are printable ASCII. -/
theorem hexDigitUnit_range (d : Nat) (h : d < 16) :
    0x20 ≤ hexDigitUnit d ∧ hexDigitUnit d ≤ 0x7e := by
  unfold hexDigitUnit
  split <;> omega

/-- Every character produced by `hexUnitsCore` is printable ASCII. -/
theorem hexUnitsCore_range (fuel : Nat) : ∀ (n : Nat), ∀ u ∈ hexUnitsCore fuel n,
    0x20 ≤ u ∧ u ≤ 0x7e := by
  induction fuel with
  | zero => intro n u hu; simp [hexUnitsCore] at hu
  | succ fuel ih =>
    intro n u hu
    simp only [hexUnitsCore] at hu
    by_cases hn : n < 16
    · rw [if_pos hn] at hu
      simp at hu
      subst hu
      exact hexDigitUnit_range n hn
    · rw [if_neg hn] at hu
      rcases List.mem_append.mp hu with h | h
      · exact ih _ u h
      · simp at h
        subst h
        exact hexDigitUnit_range _ (Nat.mod_lt _ (by omega))

/-- Every character of a padded four-character hex rendering is printable
ASCII. -/
theorem hex4_range (n : Nat) : ∀ u ∈ hex4 n, 0x20 ≤ u ∧ u ≤ 0x7e := by
  intro u hu
  unfold hex4 at hu
  have hu2 : u ∈ strUnits "0000" ++ hexUnits n := List.drop_subset _ _ hu
  rcases List.mem_append.mp hu2 with h | h
  · have hz : ∀ v ∈ strUnits "0000", 0x20 ≤ v ∧ v ≤ 0x7e := by decide
    exact hz u h
  · exact hexUnitsCore_range _ _ u h

/-- Every character of a `\uXXXX` escape is printable ASCII. -/
theorem uEscape_range (n : Nat) : ∀ u ∈ uEscape n, 0x20 ≤ u ∧ u ≤ 0x7e := by
  intro u hu
  rcases List.mem_append.mp hu with h | h
  · have hz : ∀ v ∈ strUnits "\\u", 0x20 ≤ v ∧ v ≤ 0x7e := by decide
    exact hz u h
  · exact hex4_range n u h

/-- Unfolding `quoteJsonUnits` at a double quote. -/
theorem quote_lit34 (rest : List Nat) :
    quoteJsonUnits (34 :: rest) = 92 :: 34 :: quoteJsonUnits rest := by
  rw [quoteJsonUnits.eq_def]; simp

/-- Unfolding `quoteJsonUnits` at a backslash. -/
theorem quote_lit92 (rest : List Nat) :
    quoteJsonUnits (92 :: rest) = 92 :: 92 :: quoteJsonUnits rest := by
  rw [quoteJsonUnits.eq_def]; simp

/-- Unfolding `quoteJsonUnits` at a backspace. -/
theorem quote_lit8 (rest : List Nat) :
    quoteJsonUnits (8 :: rest) = 92 :: 98 :: quoteJsonUnits rest := by
  rw [quoteJsonUnits.eq_def]; simp

/-- Unfolding `quoteJsonUnits` at a tab. -/
theorem quote_lit9 (rest : List Nat) :
    quoteJsonUnits (9 :: rest) = 92 :: 116 :: quoteJsonUnits rest := by
  rw [quoteJsonUnits.eq_def]; simp

/-- Unfolding `quoteJsonUnits` at a line feed. -/
theorem quote_lit10 (rest : List Nat) :
    quoteJsonUnits (10 :: rest) = 92 :: 110 :: quoteJsonUnits rest := by
  rw [quoteJsonUnits.eq_def]; simp

/-- Unfolding `quoteJsonUnits` at a form feed. -/
theorem quote_lit12 (rest : List Nat) :
    quoteJsonUnits (12 :: rest) = 92 :: 102 :: quoteJsonUnits rest := by
  rw [quoteJsonUnits.eq_def]; simp

/-- Unfolding `quoteJsonUnits` at a carriage return. -/
theorem quote_lit13 (rest : List Nat) :
    quoteJsonUnits (13 :: rest) = 92 :: 114 :: quoteJsonUnits rest := by
  rw [quoteJsonUnits.eq_def]; simp

/-- Unfolding `quoteJsonUnits` at a control character without a short form. -/
theorem quote_ctrl (c : Nat) (rest : List Nat) (h1 : c < 0x20) (h2 : c ≠ 0x08)
    (h3 : c ≠ 0x09) (h4 : c ≠ 0x0a) (h5 : c ≠ 0x0c) (h6 : c ≠ 0x0d) :
    quoteJsonUnits (c :: rest) = uEscape c ++ quoteJsonUnits rest := by
  rw [quoteJsonUnits.eq_def]
  simp [h1, h2, h3, h4, h5, h6, show c ≠ 34 by omega, show c ≠ 92 by omega]

/-- Unfolding `quoteJsonUnits` at an ordinary character. -/
theorem quote_plain (c : Nat) (rest : List Nat) (h1 : 0x20 ≤ c) (h2 : c ≠ 0x22)
    (h3 : c ≠ 0x5c) (h4 : c < 0xd800 ∨ 0xdfff < c) :
    quoteJsonUnits (c :: rest) = c :: quoteJsonUnits rest := by
  rw [quoteJsonUnits.eq_def]
  simp [h2, h3, show ¬ c < 32 by omega, show c ≠ 8 by omega, show c ≠ 9 by omega,
    show c ≠ 10 by omega, show c ≠ 12 by omega, show c ≠ 13 by omega,
    show ¬(0xd800 ≤ c ∧ c ≤ 0xdbff) by omega,
    show ¬(0xdc00 ≤ c ∧ c ≤ 0xdfff) by omega]

/-- Unfolding `quoteJsonUnits` at a well-formed surrogate pair. -/
theorem quote_pair (c c2 : Nat) (rest2 : List Nat)
    (hc : 0xd800 ≤ c ∧ c ≤ 0xdbff) (hc2 : 0xdc00 ≤ c2 ∧ c2 ≤ 0xdfff) :
    quoteJsonUnits (c :: c2 :: rest2) = c :: c2 :: quoteJsonUnits rest2 := by
  rw [quoteJsonUnits.eq_def]
  simp [hc, hc2, show ¬ c < 32 by omega, show c ≠ 8 by omega,
    show c ≠ 9 by omega, show c ≠ 10 by omega, show c ≠ 12 by omega,
    show c ≠ 13 by omega, show c ≠ 34 by omega, show c ≠ 92 by omega]

/-- Unfolding `quoteJsonUnits` at a high surrogate not followed by a low
surrogate. -/
theorem quote_hi_bad (c c2 : Nat) (rest2 : List Nat)
    (hc : 0xd800 ≤ c ∧ c ≤ 0xdbff) (hc2 : ¬(0xdc00 ≤ c2 ∧ c2 ≤ 0xdfff)) :
    quoteJsonUnits (c :: c2 :: rest2) =
      uEscape c ++ quoteJsonUnits (c2 :: rest2) := by
  rw [quoteJsonUnits.eq_def]
  simp [hc, hc2, show ¬ c < 32 by omega, show c ≠ 8 by omega,
    show c ≠ 9 by omega, show c ≠ 10 by omega, show c ≠ 12 by omega,
    show c ≠ 13 by omega, show c ≠ 34 by omega, show c ≠ 92 by omega]

/-- Unfolding `quoteJsonUnits` at a trailing high surrogate. -/
theorem quote_hi_nil (c : Nat) (hc : 0xd800 ≤ c ∧ c ≤ 0xdbff) :
    quoteJsonUnits [c] = uEscape c := by
  rw [quoteJsonUnits.eq_def]
  simp [hc, show ¬ c < 32 by omega, show c ≠ 8 by omega, show c ≠ 9 by omega,
    show c ≠ 10 by omega, show c ≠ 12 by omega, show c ≠ 13 by omega,
    show c ≠ 34 by omega, show c ≠ 92 by omega]

/-- Unfolding `quoteJsonUnits` at a lone low surrogate. -/
theorem quote_lo (c : Nat) (rest : List Nat) (hc : 0xdc00 ≤ c ∧ c ≤ 0xdfff) :
    quoteJsonUnits (c :: rest) = uEscape c ++ quoteJsonUnits rest := by
  rw [quoteJsonUnits.eq_def]
  simp [hc, show ¬ c < 32 by omega, show c ≠ 8 by omega, show c ≠ 9 by omega,
    show c ≠ 10 by omega, show c ≠ 12 by omega, show c ≠ 13 by omega,
    show c ≠ 34 by omega, show c ≠ 92 by omega,
    show ¬(0xd800 ≤ c ∧ c ≤ 0xdbff) by omega]

/-- JSON quoting of a string of UTF-16 code units yields only code units that
are at least the space character and below 0x10000. -/
theorem quoteJsonUnits_range (l : List Nat) :
    (∀ u ∈ l, u < 0x10000) →
    ∀ u ∈ quoteJsonUnits l, 0x20 ≤ u ∧ u < 0x10000 := by
  induction l using quoteJsonUnits.induct with
  | case1 => intro _ u hu; simp [quoteJsonUnits] at hu
  | case2 rest ih =>
    intro h u hu
    rw [quote_lit34] at hu
    simp only [List.mem_cons] at hu
    rcases hu with rfl | rfl | hu
    · omega
    · omega
    · exact ih (fun v hv => h v (List.mem_cons_of_mem _ hv)) u hu
  | case3 rest _ ih =>
    intro h u hu
    rw [quote_lit92] at hu
    simp only [List.mem_cons] at hu
    rcases hu with rfl | rfl | hu
    · omega
    · omega
    · exact ih (fun v hv => h v (List.mem_cons_of_mem _ hv)) u hu
  | case4 rest _ _ ih =>
    intro h u hu
    rw [quote_lit8] at hu
    simp only [List.mem_cons] at hu
    rcases hu with rfl | rfl | hu
    · omega
    · omega
    · exact ih (fun v hv => h v (List.mem_cons_of_mem _ hv)) u hu
  | case5 rest _ _ _ ih =>
    intro h u hu
    rw [quote_lit9] at hu
    simp only [List.mem_cons] at hu
    rcases hu with rfl | rfl | hu
    · omega
    · omega
    · exact ih (fun v hv => h v (List.mem_cons_of_mem _ hv)) u hu
  | case6 rest _ _ _ _ ih =>
    intro h u hu
    rw [quote_lit10] at hu
    simp only [List.mem_cons] at hu
    rcases hu with rfl | rfl | hu
    · omega
    · omega
    · exact ih (fun v hv => h v (List.mem_cons_of_mem _ hv)) u hu
  | case7 rest _ _ _ _ _ ih =>
    intro h u hu
    rw [quote_lit12] at hu
    simp only [List.mem_cons] at hu
    rcases hu with rfl | rfl | hu
    · omega
    · omega
    · exact ih (fun v hv => h v (List.mem_cons_of_mem _ hv)) u hu
  | case8 rest _ _ _ _ _ _ ih =>
    intro h u hu
    rw [quote_lit13] at hu
    simp only [List.mem_cons] at hu
    rcases hu with rfl | rfl | hu
    · omega
    · omega
    · exact ih (fun v hv => h v (List.mem_cons_of_mem _ hv)) u hu
  | case9 c rest h34 h92 h8 h9 h10 h12 h13 hlt ih =>
    intro h u hu
    rw [quote_ctrl c rest hlt h8 h9 h10 h12 h13] at hu
    rcases List.mem_append.mp hu with hu | hu
    · have := uEscape_range c u hu
      omega
    · exact ih (fun v hv => h v (List.mem_cons_of_mem _ hv)) u hu
  | case10 c h34 h92 h8 h9 h10 h12 h13 hge hsur c2 rest2 hc2 ih =>
    intro h u hu
    rw [quote_pair c c2 rest2 hsur hc2] at hu
    simp only [List.mem_cons] at hu
    rcases hu with rfl | rfl | hu
    · omega
    · omega
    · exact ih
        (fun v hv => h v (List.mem_cons_of_mem _ (List.mem_cons_of_mem _ hv)))
        u hu
  | case11 c h34 h92 h8 h9 h10 h12 h13 hge hsur c2 rest2 hc2 ih =>
    intro h u hu
    rw [quote_hi_bad c c2 rest2 hsur hc2] at hu
    rcases List.mem_append.mp hu with hu | hu
    · have := uEscape_range c u hu
      omega
    · exact ih (fun v hv => h v (List.mem_cons_of_mem _ hv)) u hu
  | case12 c h34 h92 h8 h9 h10 h12 h13 hge hsur =>
    intro h u hu
    rw [quote_hi_nil c hsur] at hu
    have := uEscape_range c u hu
    omega
  | case13 c rest h34 h92 h8 h9 h10 h12 h13 hge hnhi hlo ih =>
    intro h u hu
    rw [quote_lo c rest hlo] at hu
    rcases List.mem_append.mp hu with hu | hu
    · have := uEscape_range c u hu
      omega
    · exact ih (fun v hv => h v (List.mem_cons_of_mem _ hv)) u hu
  | case14 c rest h34 h92 h8 h9 h10 h12 h13 hge hnhi hnlo ih =>
    intro h u hu
    rw [quote_plain c rest (by omega) h34 h92 (by omega)] at hu
    simp only [List.mem_cons] at hu
    rcases hu with hequ | hu
    · have := h c (List.mem_cons_self _ _)
      omega
    · exact ih (fun v hv => h v (List.mem_cons_of_mem _ hv)) u hu

/-- JSON quoting leaves a string of printable characters free of quote and
backslash untouched. -/
theorem quoteJsonUnits_safe_id (l : List Nat) :
    (∀ u ∈ l, 0x20 ≤ u ∧ u ≤ 0x7e ∧ u ≠ 0x22 ∧ u ≠ 0x5c) →
    quoteJsonUnits l = l := by
  induction l with
  | nil => intro _; rfl
  | cons c rest ih =>
    intro h
    have hc := h c (List.mem_cons_self _ _)
    rw [quote_plain c rest hc.1 hc.2.2.1 hc.2.2.2 (Or.inl (by omega))]
    rw [ih (fun v hv => h v (List.mem_cons_of_mem _ hv))]

/-- `escapeNonAscii` maps any string of non-control code units below 0x10000
into printable ASCII. -/
theorem escapeNonAscii_range (l : List Nat) :
    (∀ u ∈ l, 0x20 ≤ u ∧ u < 0x10000) →
    ∀ u ∈ escapeNonAscii l, 0x20 ≤ u ∧ u ≤ 0x7e := by
  intro h u hu
  simp only [escapeNonAscii, List.mem_flatMap] at hu
  obtain ⟨c, hc, hmem⟩ := hu
  by_cases hr : 0x7f ≤ c ∧ c ≤ 0xffff
  · rw [if_pos hr] at hmem
    exact uEscape_range c u hmem
  · rw [if_neg hr] at hmem
    simp at hmem
    have := h c hc
    omega

/-- `escapeNonAscii` is the identity on ASCII input. -/
theorem escapeNonAscii_ascii_id (l : List Nat) :
    (∀ u ∈ l, u ≤ 0x7e) → escapeNonAscii l = l := by
  induction l with
  | nil => intro _; rfl
  | cons c rest ih =>
    intro h
    have hc := h c (List.mem_cons_self _ _)
    simp only [escapeNonAscii, List.flatMap_cons]
    rw [if_neg (by omega)]
    simp only [List.singleton_append]
    congr 1
    exact ih (fun v hv => h v (List.mem_cons_of_mem _ hv))

/-- C1 counterexample: for a path consisting of one line-feed character the
header contains the two-character JSON escape backslash-n, not the
`\u000a` numeric escape the claim requires for every character outside the
printable range. -/
theorem downloadHeader_counterexample :
    downloadApiArgHeader [0x0a] ≠ claimHeader [0x0a] ∧
    downloadApiArgHeader [0x0a] = strUnits "\x7b\"path\":\"\\n\"\x7d" ∧
    claimHeader [0x0a] = strUnits "\x7b\"path\":\"\\u000a\"\x7d" := by
  refine ⟨by decide, by decide, by decide⟩

/-- C1 (amended): the header value is `escapeNonAscii` applied to the JSON
encoding of the path.  For every path of UTF-16 code units, all header
characters lie in printable ASCII [0x20, 0x7e]; the `Dropbox-API-Arg` entry
of the download request carries exactly this value; and a path made of
printable ASCII characters other than quote and backslash is embedded
verbatim between `\x7b"path":"` and `"\x7d`. -/
theorem downloadHeader_ascii_safe (filePath : List Nat)
    (h : ∀ u ∈ filePath, u < 0x10000) :
    (∀ u ∈ downloadApiArgHeader filePath, 0x20 ≤ u ∧ u ≤ 0x7e) ∧
    (∀ accessToken, List.lookup "Dropbox-API-Arg"
        (downloadHeaders accessToken filePath) =
      some (downloadApiArgHeader filePath)) ∧
    ((∀ u ∈ filePath, 0x20 ≤ u ∧ u ≤ 0x7e ∧ u ≠ 0x22 ∧ u ≠ 0x5c) →
      downloadApiArgHeader filePath =
        strUnits "\x7b\"path\":\"" ++ filePath ++ strUnits "\"\x7d") := by
  refine ⟨?_, ?_, ?_⟩
  · apply escapeNonAscii_range
    intro u hu
    rcases List.mem_append.mp hu with hu | hu
    · rcases List.mem_append.mp hu with hu | hu
      · have hz : ∀ v ∈ strUnits "\x7b\"path\":\"", 0x20 ≤ v ∧ v < 0x10000 := by
          decide
        exact hz u hu
      · exact quoteJsonUnits_range filePath h u hu
    · have hz : ∀ v ∈ strUnits "\"\x7d", 0x20 ≤ v ∧ v < 0x10000 := by decide
      exact hz u hu
  · intro accessToken
    rfl
  · intro hsafe
    unfold downloadApiArgHeader jsonPathArg
    rw [quoteJsonUnits_safe_id filePath hsafe]
    apply escapeNonAscii_ascii_id
    intro u hu
    rcases List.mem_append.mp hu with hu | hu
    · rcases List.mem_append.mp hu with hu | hu
      · have hz : ∀ v ∈ strUnits "\x7b\"path\":\"", v ≤ 0x7e := by decide
        exact hz u hu
      · exact (hsafe u hu).2.1
    · have hz : ∀ v ∈ strUnits "\"\x7d", v ≤ 0x7e := by decide
      exact hz u hu

/-- Witness for C1 at the path "/a.txt". -/
theorem downloadHeader_ascii_safe_witness :
    downloadApiArgHeader [47, 97, 46, 116, 120, 116] =
      strUnits "\x7b\"path\":\"" ++ [47, 97, 46, 116, 120, 116] ++
        strUnits "\"\x7d" :=
  (downloadHeader_ascii_safe [47, 97, 46, 116, 120, 116] (by decide)).2.2
    (by decide)

end DropboxMcp
